import Mathlib

/-!
Verification development for `snapback.py` (joshm1/snapback).

This file gives a shallow embedding of the decision-dense core of the
program — the flat-dict configuration model (`resolve_job_config`,
`_migrate_format_field`), exclusion-list construction, the legacy
`jobs.json` migration (`migrate_jobs_json`), the combined restic+archive
scheduling engine (`run_combined_backup`), the surrounding CLI gating
(destination/battery/recency checks, exit-code mapping), and job-key
normalization (`get_job_key`) — and proves or refutes the specified
properties about them.

Machine integers are modelled as `Int` (Python ints are unbounded), times
as integer seconds, Python dicts as insertion-ordered association lists,
and fallible reads as `Option`.
-/

namespace Snapback

/-- A value stored in one of the flat Python dicts manipulated by the
configuration layer.  The functions embedded here only ever construct or
compare string, boolean and integer leaves. -/
inductive Value where
  | str : String → Value
  | bool : Bool → Value
  | int : Int → Value
deriving DecidableEq, Repr

/-- A Python `dict` with string keys, modelled as an insertion-ordered
association list.  A real `dict` has unique keys; where a proof needs
this it is carried as a `Nodup` hypothesis on the key list. -/
abbrev PyDict := List (String × Value)

/-- Lookup, as in Python `d.get(k)`: the first (with unique keys, the
only) binding of `k`. -/
def dGet : PyDict → String → Option Value
  | [], _ => none
  | (k', v') :: t, k => if k' = k then some v' else dGet t k

/-- Assignment `d[k] = v`: replace the binding in place if the key
exists (CPython keeps the original insertion position), else append. -/
def dSet : PyDict → String → Value → PyDict
  | [], k, v => [(k, v)]
  | (k', v') :: t, k, v => if k' = k then (k, v) :: t else (k', v') :: dSet t k v

/-- Removal `d.pop(k)`: drop the (first) binding of `k`, if any. -/
def dPop : PyDict → String → PyDict
  | [], _ => []
  | (k', v') :: t, k => if k' = k then t else (k', v') :: dPop t k

/-- The in-place update `d.update(other)`: assign each binding of
`other` into `d`, in order. -/
def dUpdate (d other : PyDict) : PyDict :=
  other.foldl (fun acc kv => dSet acc kv.1 kv.2) d

/-- Embedding of `_migrate_format_field` (snapback.py lines 265-280):
translate the legacy single-enum `"format"` field into the
`"archive_format"` + `"use_restic"` pair. -/
def migrate_format_field (config : PyDict) : PyDict :=
  match dGet config "format" with
  | none => config
  | some old_format =>
    let config := dPop config "format"
    if old_format = .str "hybrid" then
      dSet (dSet config "archive_format" (.str "7z")) "use_restic" (.bool true)
    else if old_format = .str "restic" then
      dSet (dSet config "archive_format" (.str "")) "use_restic" (.bool true)
    else if old_format = .str "7z" ∨ old_format = .str "tar.gz" then
      dSet (dSet config "archive_format" old_format) "use_restic" (.bool false)
    else
      config

/-- Embedding of `resolve_job_config` (lines 310-314):
`resolved = defaults.copy(); resolved.update(job); return resolved`. -/
def resolve_job_config (job defaults : PyDict) : PyDict :=
  dUpdate defaults job


/-! ### Exclusion-list construction

The program combines the global default exclusions with the job-specific
ones at CLI time (snapback.py lines 1886-1888):

    excludes = [] if no_default_excludes else list(DEFAULT_EXCLUDES)
    excludes.extend(exclude)
-/

/-- The global default exclusion list, `DEFAULT_EXCLUDES`
(lines 463-511). -/
def DEFAULT_EXCLUDES : List String :=
  ["node_modules", ".pnpm-store", ".npm", ".yarn", ".next", ".nuxt", ".turbo",
   ".venv", "venv", ".virtualenv", "__pycache__", ".mypy_cache",
   ".pytest_cache", ".ruff_cache", ".tox", "*.egg-info", ".eggs",
   "Pods", "DerivedData", ".build", ".gradle", ".cxx",
   "dist", "build", "target", "zig-out", "out",
   ".cache", ".parcel-cache", ".nx", ".idea", ".vscode", ".docker",
   "*.pyc", "*.pyo", ".coverage", "coverage", "htmlcov"]

/-- The exclusion list the CLI builds: the global defaults (unless
explicitly disabled) followed by the job-specific `--exclude` values. -/
def build_excludes (no_default_excludes : Bool) (exclude : List String) :
    List String :=
  (if no_default_excludes then [] else DEFAULT_EXCLUDES) ++ exclude

/-! ### The combined restic+archive scheduling engine -/

/-- Seconds in `timedelta(hours=h)`. -/
def hoursToSecs (h : Int) : Int := h * 3600

/-- Seconds in `timedelta(days=d)`. -/
def daysToSecs (d : Int) : Int := d * 86400

/-- The per-operation-kind "is it due" decision inside
`run_combined_backup` (lines 1611-1635), identical for the restic and
the full kind: `needed = force`; with a recorded last time and no
force, needed is false exactly when the age is strictly below the
threshold; with no recorded last time, needed is true. -/
def kind_needed (force : Bool) (last : Option Int) (now threshold : Int) :
    Bool :=
  match last with
  | some t => if force then true else if now - t < threshold then false else true
  | none => true

/-- Run state for one job: operation-kind label ("restic", or the
archive format string) to last-success timestamp, as written by
`update_job_last_run` (lines 450-459). -/
abbrev RunMap := String → Option Int

/-- The write `state[key]["last_runs"][backup_type] = now` performed by
`update_job_last_run`. -/
def updLastRun (st : RunMap) (backup_type : String) (t : Int) : RunMap :=
  fun k => if k = backup_type then some t else st k

/-- Observable outcome of one `run_combined_backup` call: its return
value, the two needed flags, whether each kind's backup function was
invoked, the `restic_ran` / `full_ran` flags, and the run state after
the call. -/
structure CombinedResult where
  exitCode : Nat
  resticNeeded : Bool
  fullNeeded : Bool
  resticAttempted : Bool
  fullAttempted : Bool
  restic_ran : Bool
  full_ran : Bool
  state : RunMap

/-- Embedding of `run_combined_backup` (lines 1598-1680).  The outcomes
of the external backup attempts (`create_restic_backup`,
`create_7z_backup` / `create_backup`) are inputs `resticOk` / `fullOk`;
`resticAttempted` / `fullAttempted` record whether the corresponding
call was made.  Successful kinds update the run state immediately, via
`update_job_last_run`, with key "restic" resp. the archive format. -/
def run_combined_backup (restic_interval_hours full_interval_days : Int)
    (archive_format : String) (now : Int) (last_restic last_full : Option Int)
    (force auto dry_run : Bool) (resticOk fullOk : Bool) (st : RunMap) :
    CombinedResult :=
  let restic_needed := kind_needed force last_restic now
    (hoursToSecs restic_interval_hours)
  let full_needed := kind_needed force last_full now
    (daysToSecs full_interval_days)
  -- lines 1637-1642: when no kind is needed the function returns 0 (in both
  -- the auto and the non-auto branch) before attempting anything; with
  -- neither kind needed the attempt formulas below all collapse to that
  -- same no-op outcome, so only the return value needs the explicit guard.
  let noneNeeded := !restic_needed && !full_needed
  -- restic phase (lines 1644-1653): attempted when needed and not dry-run;
  -- a success updates the run state immediately.
  let resticAttempted := restic_needed && !dry_run
  let restic_ran := resticAttempted && resticOk
  let st₁ := if restic_ran then updLastRun st "restic" now else st
  -- full-archive phase (lines 1655-1670), run regardless of the restic
  -- outcome; a success updates the run state under the archive format key.
  let fullAttempted := full_needed && !dry_run
  let full_ran := fullAttempted && fullOk
  let st₂ := if full_ran then updLastRun st₁ archive_format now else st₁
  -- aggregate return value (lines 1672-1680)
  let code : Nat :=
    if noneNeeded then 0
    else if dry_run then 0
    else if restic_ran || full_ran then
      if (restic_needed && !restic_ran) || (full_needed && !full_ran) then 2
      else 0
    else 1
  ⟨code, restic_needed, full_needed, resticAttempted, fullAttempted,
   restic_ran, full_ran, st₂⟩

/-- The exit-code mapping the CLI applies to the combined-mode result
(line 1982): `ctx.exit(0 if result in (0, 2) else 1)`. -/
def cli_combined_exit (result : Nat) : Nat :=
  if result = 0 ∨ result = 2 then 0 else 1

/-! ### CLI gating and exit codes

Model of the backup path of `cli` (lines 1939-2039), after argument
parsing and config construction: source-existence validation,
destination-accessibility check, battery gate, list mode, then either
the combined restic+archive mode or the single-kind mode with its
18-hour recency guard. -/

/-- Inputs to one backup invocation of `cli`: flags, environment
signals, the recorded last-backup times, the outcomes of the external
backup attempts, and the initial run state.  `archive_format` is the
value after the `"none" -> ""` normalization of line 1894-1895. -/
structure CliEnv where
  sourceExists : Bool
  destParentExists : Bool
  onBattery : Bool
  listMode : Bool
  force : Bool
  auto : Bool
  dry_run : Bool
  restic : Bool
  archive_format : String
  restic_interval : Int
  full_interval : Int
  now : Int
  last_restic : Option Int
  last_full : Option Int
  resticOk : Bool
  fullOk : Bool
  confirmAnswer : Bool
  st : RunMap

/-- Observable outcome of a `cli` backup invocation: process exit code,
whether each operation kind's backup function was invoked, and the run
state afterwards. -/
structure CliOutcome where
  exitCode : Nat
  resticAttempted : Bool
  fullAttempted : Bool
  state : RunMap

/-- The single-kind (non-combined) tail of `cli` (lines 1984-2039):
18-hour recency guard, then one backup attempt, updating the job's
last-run timestamp on success. -/
def cli_single (e : CliEnv) : CliOutcome :=
  let last := if e.restic then e.last_restic else e.last_full
  let skipCode : Option Nat :=
    match last with
    | some t =>
      let age := e.now - t
      if e.auto && decide (age < hoursToSecs 18) then some 0
      else if decide (age < hoursToSecs 18) && !e.force then
        if e.dry_run then some 0
        else if !e.confirmAnswer then some 0
        else none
      else none
    | none => none
  match skipCode with
  | some c => ⟨c, false, false, e.st⟩
  | none =>
    if !e.restic && e.archive_format = "" then
      -- "Must specify either --restic or --archive-format" (line 2023)
      ⟨1, false, false, e.st⟩
    else
      let rAtt := e.restic
      let fAtt := !e.restic
      let ok := if e.restic then e.resticOk else e.fullOk
      let backup_type_for_save := if e.restic then "restic" else e.archive_format
      if e.dry_run then ⟨0, rAtt, fAtt, e.st⟩
      else if ok then
        ⟨0, rAtt, fAtt, updLastRun e.st backup_type_for_save e.now⟩
      else ⟨1, rAtt, fAtt, e.st⟩

/-- The backup path of `cli` (lines 1939-2039). -/
def cli (e : CliEnv) : CliOutcome :=
  if !e.sourceExists then
    -- ClickException: "Source directory does not exist" (line 1941)
    ⟨1, false, false, e.st⟩
  else if !e.destParentExists then
    -- check_dest_accessible failed (lines 1944-1947)
    if e.auto then ⟨0, false, false, e.st⟩ else ⟨1, false, false, e.st⟩
  else if e.auto && e.onBattery then
    -- battery gate, auto mode only (lines 1949-1952)
    ⟨0, false, false, e.st⟩
  else if e.listMode then
    ⟨0, false, false, e.st⟩
  else if e.restic && decide (e.archive_format ≠ "") then
    -- combined restic + archive mode (lines 1969-1982)
    let r := run_combined_backup e.restic_interval e.full_interval
      e.archive_format e.now e.last_restic e.last_full
      e.force e.auto e.dry_run e.resticOk e.fullOk e.st
    ⟨cli_combined_exit r.exitCode, r.resticAttempted, r.fullAttempted, r.state⟩
  else
    cli_single e

/-! ### Migration of the legacy jobs.json store

Embedding of `migrate_jobs_json` (lines 350-413), which rewrites the
legacy flat `jobs.json` store into `manifest.toml` + `state.json`. -/

/-- The `options` sub-dict of a legacy job record, with the fields
`migrate_jobs_json` reads; `none` models an absent key. -/
structure LegacyOpts where
  use_restic : Option Bool
  hybrid : Option Bool
  use_7z : Option Bool
  op_vault : Option String
  restic_interval_hours : Option Int
  full_interval_days : Option Int
  daemon_plist : Option String
deriving DecidableEq, Repr

/-- One legacy `jobs.json` record. -/
structure LegacyJob where
  name : Option String
  source : Option String
  dest : Option String
  options : LegacyOpts
  last_runs : List (String × String)
deriving DecidableEq, Repr

/-- Python truthiness of an optional string: absent and "" are falsy. -/
def truthyStr : Option String → Bool
  | none => false
  | some s => s ≠ ""

/-- Python truthiness of an optional bool. -/
def truthyBool : Option Bool → Bool
  | none => false
  | some b => b

/-- Python truthiness of an optional int: absent and 0 are falsy. -/
def truthyInt : Option Int → Bool
  | none => false
  | some i => i ≠ 0

/-- One job entry of the new manifest, as `migrate_jobs_json` builds it
(lines 369-396); `none` models a key that is not added. -/
structure JobConfig where
  name : String
  source : String
  dest : Option String
  format : Option String
  op_vault : Option String
  restic_interval_hours : Option Int
  full_interval_days : Option Int
deriving DecidableEq, Repr

/-- The config part extracted from one legacy record
(lines 370-394). -/
def legacy_to_job_config (jd : LegacyJob) : JobConfig :=
  { name := jd.name.getD ""
    source := jd.source.getD ""
    dest := if truthyStr jd.dest then jd.dest else none
    format :=
      if truthyBool jd.options.use_restic then some "restic"
      else if truthyBool jd.options.hybrid then some "hybrid"
      else if jd.options.use_7z = some false then some "tar.gz"
      else none  -- inherits default "7z"
    op_vault := if truthyStr jd.options.op_vault then jd.options.op_vault else none
    restic_interval_hours :=
      if truthyInt jd.options.restic_interval_hours then
        jd.options.restic_interval_hours
      else none
    full_interval_days :=
      if truthyInt jd.options.full_interval_days then
        jd.options.full_interval_days
      else none }

/-- One entry of the new `state.json`. -/
structure JobState where
  last_runs : List (String × String)
  daemon_plist : Option String
deriving DecidableEq, Repr

/-- The state part extracted from one legacy record (lines 398-406):
present only if it would be non-empty. -/
def legacy_to_job_state (jd : LegacyJob) : Option JobState :=
  if jd.last_runs ≠ [] ∨ truthyStr jd.options.daemon_plist then
    some ⟨if jd.last_runs ≠ [] then jd.last_runs else [],
          if truthyStr jd.options.daemon_plist then jd.options.daemon_plist
          else none⟩
  else none

/-- The `defaults` section of `DEFAULT_MANIFEST` (lines 252-262). -/
structure ManifestDefaults where
  dest : String
  archive_format : String
  use_restic : Bool
  restic_interval_hours : Int
  full_interval_days : Int
  op_vault : String
deriving DecidableEq, Repr

/-- The built-in defaults record. -/
def DEFAULT_MANIFEST_defaults : ManifestDefaults :=
  ⟨"~/Backups", "7z", false, 4, 7, ""⟩

/-- The new `manifest.toml` document. -/
structure Manifest where
  defaults : ManifestDefaults
  jobs : List JobConfig
deriving DecidableEq, Repr

/-- The persistent storage `migrate_jobs_json` touches.  For the legacy
file, `none` models a missing file, `some none` a file that fails to
parse, and `some (some m)` a parsed key-to-record mapping. -/
structure Storage where
  jobs_file : Option (Option (List (String × LegacyJob)))
  manifest_file : Option Manifest
  state_file : Option (List (String × JobState))
deriving DecidableEq, Repr

/-- Embedding of `migrate_jobs_json` (lines 350-413): returns the
boolean result together with the storage after the call. -/
def migrate_jobs_json (s : Storage) : Bool × Storage :=
  match s.jobs_file with
  | none => (false, s)                      -- jobs.json does not exist
  | some raw =>
    if s.manifest_file.isSome then (false, s)  -- already migrated
    else
      match raw with
      | none => (false, s)                  -- parse failure: non-fatal
      | some old_jobs =>
        if old_jobs = [] then (false, s)    -- `if not old_jobs`
        else
          let jobs := old_jobs.map fun kv => legacy_to_job_config kv.2
          let st := old_jobs.filterMap fun kv =>
            (legacy_to_job_state kv.2).map fun js => (kv.1, js)
          let manifest : Manifest := ⟨DEFAULT_MANIFEST_defaults, jobs⟩
          (true,
           { s with
               manifest_file := some manifest
               state_file := if st ≠ [] then some st else s.state_file })

/-! ### Job-key normalization

Embedding of `get_job_key` (lines 247-249):

    return str(source.expanduser().resolve())

A path is its component list plus an absolute flag; the canonical
string result is modelled by the canonical absolute path itself (the
rendering of an absolute path with slash-free components is injective,
and `Path(str(p))` recovers `p`).  The filesystem enters through a
symlink table mapping absolute link paths to their targets, together
with the current working directory that `resolve` uses for relative
paths; a well-formedness condition states that link targets are
themselves fully resolved (no link chains, no relative segments), which
is what the real filesystem guarantees after `resolve` has run. -/

/-- A textual path: whether it is absolute, and its components. -/
structure PPath where
  absolute : Bool
  segs : List String
deriving DecidableEq, Repr

/-- The symlink table: absolute link paths to absolute targets. -/
abbrev FS := List (List String × List String)

/-- Find the target of a symlink, if the path is one. -/
def lookupLink : FS → List String → Option (List String)
  | [], _ => none
  | (k, t) :: rest, p => if k = p then some t else lookupLink rest p

/-- Python `Path.expanduser()`: replace a leading `~` component with the
home directory (the `~user` form expands analogously and is not
modelled separately). -/
def expanduser (home : List String) (p : PPath) : PPath :=
  if p.absolute then p
  else
    match p.segs with
    | s :: rest => if s = "~" then ⟨true, home ++ rest⟩ else p
    | [] => p

/-- The component walk of `Path.resolve()`: skip `.` and empty
components, let `..` drop the last resolved component, and follow a
symlink when the extended path is one (in a non-strict resolve,
components that are not symlinks are kept as-is). -/
def resolveGo (fs : FS) : List String → List String → List String
  | cur, [] => cur
  | cur, s :: rest =>
    if s = "." ∨ s = "" then resolveGo fs cur rest
    else if s = ".." then resolveGo fs cur.dropLast rest
    else
      match lookupLink fs (cur ++ [s]) with
      | some t => resolveGo fs t rest
      | none => resolveGo fs (cur ++ [s]) rest

/-- Python `Path.resolve()`: make the path absolute against the current
working directory and resolve its components. -/
def resolvePath (fs : FS) (cwd : List String) (p : PPath) : List String :=
  resolveGo fs (if p.absolute then [] else cwd) p.segs

/-- Embedding of `get_job_key`: `source.expanduser().resolve()`, as a
canonical absolute path. -/
def get_job_key (fs : FS) (cwd home : List String) (p : PPath) : PPath :=
  ⟨true, resolvePath fs cwd (expanduser home p)⟩

/-- A component that names a real entry: not `.`, `..` or empty. -/
def cleanSeg (s : String) : Bool := !(s = "." || s = ".." || s = "")

/-- All components clean. -/
def cleanSegs (r : List String) : Bool := r.all cleanSeg

/-- No non-empty prefix of the path is a symlink. -/
def linkFree (fs : FS) (r : List String) : Bool :=
  (List.range r.length).all fun i => (lookupLink fs (r.take (i + 1))).isNone

/-- A fully resolved path: clean components, no symlink prefix. -/
def goodPath (fs : FS) (r : List String) : Bool :=
  cleanSegs r && linkFree fs r

/-- Well-formed symlink table: every target is fully resolved. -/
def wfFS (fs : FS) : Bool := fs.all fun kv => goodPath fs kv.2

theorem lookupLink_mem {fs : FS} {p t : List String}
    (h : lookupLink fs p = some t) : (p, t) ∈ fs := by
  induction fs with
  | nil => simp [lookupLink] at h
  | cons kv rest ih =>
    obtain ⟨k, t'⟩ := kv
    by_cases hk : k = p
    · subst hk
      simp only [lookupLink, if_true, eq_self_iff_true, ite_true,
        Option.some.injEq] at h
      subst h
      exact List.mem_cons_self _ _
    · simp only [lookupLink, if_neg hk] at h
      exact List.mem_cons_of_mem _ (ih h)

theorem linkFree_iff {fs : FS} {r : List String} :
    linkFree fs r = true ↔
      ∀ i, i < r.length → lookupLink fs (r.take (i + 1)) = none := by
  simp only [linkFree, List.all_eq_true, List.mem_range, Option.isNone_iff_eq_none]

theorem goodPath_nil (fs : FS) : goodPath fs [] = true := by
  simp [goodPath, cleanSegs, linkFree]

theorem goodPath_dropLast {fs : FS} {r : List String}
    (h : goodPath fs r = true) : goodPath fs r.dropLast = true := by
  simp only [goodPath, Bool.and_eq_true] at h ⊢
  constructor
  · simp only [cleanSegs, List.all_eq_true] at h ⊢
    exact fun x hx => h.1 x ((List.dropLast_sublist r).subset hx)
  · rw [linkFree_iff] at h ⊢
    intro i hi
    have hlen : r.dropLast.length = r.length - 1 := List.length_dropLast r
    rw [hlen] at hi
    have htk : r.dropLast.take (i + 1) = r.take (i + 1) := by
      rw [List.dropLast_eq_take, List.take_take]
      congr 1
      omega
    rw [htk]
    exact h.2 i (by omega)

theorem goodPath_append_of_none {fs : FS} {r : List String} {s : String}
    (h : goodPath fs r = true) (hs : cleanSeg s = true)
    (hn : lookupLink fs (r ++ [s]) = none) :
    goodPath fs (r ++ [s]) = true := by
  simp only [goodPath, Bool.and_eq_true] at h ⊢
  constructor
  · simp only [cleanSegs, List.all_eq_true] at h ⊢
    intro x hx
    rcases List.mem_append.mp hx with hx | hx
    · exact h.1 x hx
    · simp only [List.mem_singleton] at hx
      subst hx; exact hs
  · rw [linkFree_iff] at h ⊢
    intro i hi
    simp only [List.length_append, List.length_singleton] at hi
    by_cases hlt : i < r.length
    · rw [List.take_append_of_le_length (by omega)]
      exact h.2 i hlt
    · have : i = r.length := by omega
      subst this
      rw [List.take_of_length_le (by simp)]
      exact hn

/-- The walk of `resolve` preserves full-resolvedness of the current
path when the symlink table is well-formed. -/
theorem goodPath_resolveGo {fs : FS} (hw : wfFS fs = true) :
    ∀ (l cur : List String), goodPath fs cur = true →
      goodPath fs (resolveGo fs cur l) = true := by
  intro l
  induction l with
  | nil => intro cur h; simpa [resolveGo] using h
  | cons s rest ih =>
    intro cur h
    by_cases h₁ : s = "." ∨ s = ""
    · simpa [resolveGo, h₁] using ih cur h
    · by_cases h₂ : s = ".."
      · simpa [resolveGo, h₁, h₂] using ih cur.dropLast (goodPath_dropLast h)
      · have hs : cleanSeg s = true := by
          simp only [cleanSeg, Bool.not_eq_true', Bool.or_eq_false_iff,
            decide_eq_false_iff_not]
          tauto
        cases hl : lookupLink fs (cur ++ [s]) with
        | some t =>
          have ht : goodPath fs t = true := by
            have := List.all_eq_true.mp hw _ (lookupLink_mem hl)
            exact this
          simpa [resolveGo, h₁, h₂, hl] using ih t ht
        | none =>
          simpa [resolveGo, h₁, h₂, hl] using
            ih (cur ++ [s]) (goodPath_append_of_none h hs hl)

/-- Walking a clean, symlink-free suffix just appends it. -/
theorem resolveGo_of_clean {fs : FS} :
    ∀ (l cur : List String), cleanSegs l = true →
      (∀ i, i < l.length → lookupLink fs (cur ++ l.take (i + 1)) = none) →
      resolveGo fs cur l = cur ++ l := by
  intro l
  induction l with
  | nil => intro cur _ _; simp [resolveGo]
  | cons s rest ih =>
    intro cur hc hn
    simp only [cleanSegs, List.all_cons, Bool.and_eq_true] at hc
    have hs := hc.1
    simp only [cleanSeg, Bool.not_eq_true', Bool.or_eq_false_iff,
      decide_eq_false_iff_not] at hs
    have h₁ : ¬(s = "." ∨ s = "") := by tauto
    have h₂ : s ≠ ".." := by tauto
    have h0 : lookupLink fs (cur ++ [s]) = none := by
      have := hn 0 (by simp)
      simpa using this
    rw [resolveGo, if_neg h₁, if_neg h₂, h0]
    have hrest : ∀ i, i < rest.length →
        lookupLink fs ((cur ++ [s]) ++ rest.take (i + 1)) = none := by
      intro i hi
      have := hn (i + 1) (by simp; omega)
      simpa [List.take_cons, List.append_assoc] using this
    rw [ih (cur ++ [s]) hc.2 hrest]
    simp

/-- Resolving an already fully resolved absolute path is the
identity. -/
theorem resolveGo_of_good {fs : FS} {r : List String}
    (h : goodPath fs r = true) : resolveGo fs [] r = r := by
  simp only [goodPath, Bool.and_eq_true] at h
  have := resolveGo_of_clean r [] h.1 (by
    intro i hi
    simp only [List.nil_append]
    exact linkFree_iff.mp h.2 i hi)
  simpa using this

/-! ### Association-list lemmas for the dict model -/

theorem dGet_dSet_self (d : PyDict) (k : String) (v : Value) :
    dGet (dSet d k v) k = some v := by
  induction d with
  | nil => simp [dSet, dGet]
  | cons kv t ih =>
    obtain ⟨k', v'⟩ := kv
    by_cases h : k' = k <;> simp [dSet, dGet, h, ih]

theorem dGet_dSet_ne (d : PyDict) {k' k : String} (v : Value) (h : k' ≠ k) :
    dGet (dSet d k' v) k = dGet d k := by
  induction d with
  | nil => simp [dSet, dGet, h]
  | cons kv t ih =>
    obtain ⟨k₀, v₀⟩ := kv
    by_cases h₀ : k₀ = k' <;> simp [dSet, dGet, h₀, h, ih]

theorem dGet_eq_none_of_not_mem {d : PyDict} {k : String}
    (h : k ∉ d.map Prod.fst) : dGet d k = none := by
  induction d with
  | nil => simp [dGet]
  | cons kv t ih =>
    obtain ⟨k', v'⟩ := kv
    simp only [List.map_cons, List.mem_cons, not_or] at h
    have hk : k' ≠ k := fun e => h.1 e.symm
    simp [dGet, hk, ih h.2]

theorem dGet_dPop_self (d : PyDict) (k : String)
    (hnd : (d.map Prod.fst).Nodup) : dGet (dPop d k) k = none := by
  induction d with
  | nil => simp [dPop, dGet]
  | cons kv t ih =>
    obtain ⟨k', v'⟩ := kv
    simp only [List.map_cons, List.nodup_cons] at hnd
    by_cases h : k' = k
    · subst h
      simp only [dPop, if_pos rfl]
      exact dGet_eq_none_of_not_mem hnd.1
    · simp [dPop, dGet, h, ih hnd.2]

theorem dGet_dPop_ne (d : PyDict) {k' k : String} (h : k' ≠ k) :
    dGet (dPop d k') k = dGet d k := by
  induction d with
  | nil => simp [dPop]
  | cons kv t ih =>
    obtain ⟨k₀, v₀⟩ := kv
    by_cases h₀ : k₀ = k'
    · subst h₀; simp [dPop, dGet, h]
    · simp [dPop, dGet, h₀, ih]

theorem dGet_dUpdate_of_none {other : PyDict} {k : String}
    (h : dGet other k = none) (d : PyDict) :
    dGet (dUpdate d other) k = dGet d k := by
  induction other generalizing d with
  | nil => simp [dUpdate]
  | cons kv t ih =>
    obtain ⟨k', v'⟩ := kv
    simp only [dGet] at h
    by_cases hk : k' = k
    · simp [hk] at h
    · simp only [if_neg hk] at h
      show dGet (dUpdate (dSet d k' v') t) k = dGet d k
      rw [ih h, dGet_dSet_ne _ _ hk]

theorem dGet_dUpdate_of_some {other : PyDict} {k : String} {v : Value}
    (hnd : (other.map Prod.fst).Nodup) (h : dGet other k = some v) (d : PyDict) :
    dGet (dUpdate d other) k = some v := by
  induction other generalizing d with
  | nil => simp [dGet] at h
  | cons kv t ih =>
    obtain ⟨k', v'⟩ := kv
    simp only [List.map_cons, List.nodup_cons] at hnd
    simp only [dGet] at h
    by_cases hk : k' = k
    · subst hk
      simp only [if_true, eq_self_iff_true, ite_true, Option.some.injEq] at h
      subst h
      show dGet (dUpdate (dSet d k' v') t) k' = some v'
      rw [dGet_dUpdate_of_none (dGet_eq_none_of_not_mem hnd.1), dGet_dSet_self]
    · simp only [if_neg hk] at h
      exact ih hnd.2 h (dSet d k' v')

/-! ## Claim theorems -/

/-- C2: In the combined backup mode each operation kind is evaluated
independently: with `force` set the kind is needed; otherwise with no
last-success timestamp the kind is needed; otherwise it is needed
exactly when `now - last_success >= threshold`, where the engine uses
`restic_interval_hours` (in hours) for the incremental kind and
`full_interval_days` (in days) for the full kind; in particular at age
exactly equal to the threshold the kind is needed. -/
theorem claim_C2_kind_needed (hrs days : Int) (fmt : String) (now : Int)
    (lastR lastF : Option Int) (force auto dry rOk fOk : Bool) (st : RunMap)
    (t thr : Int) (last : Option Int) :
    (run_combined_backup hrs days fmt now lastR lastF force auto dry rOk fOk
        st).resticNeeded = kind_needed force lastR now (hoursToSecs hrs) ∧
    (run_combined_backup hrs days fmt now lastR lastF force auto dry rOk fOk
        st).fullNeeded = kind_needed force lastF now (daysToSecs days) ∧
    kind_needed true last now thr = true ∧
    kind_needed false none now thr = true ∧
    (kind_needed false (some t) now thr = true ↔ thr ≤ now - t) ∧
    kind_needed false (some (now - thr)) now thr = true := by
  refine ⟨rfl, rfl, ?_, rfl, ?_, ?_⟩
  · cases last <;> simp [kind_needed]
  · simp only [kind_needed, if_false, Bool.if_false_left]
    constructor
    · intro h
      by_contra hlt
      simp [show now - t < thr by omega] at h
    · intro h
      simp [show ¬(now - t < thr) by omega]
  · simp [kind_needed]

/-- C3: In a non-dry-run combined-mode evaluation with at least one kind
needed, `run_combined_backup` returns 0 iff every needed kind's attempt
succeeded, 2 iff at least one needed kind succeeded and at least one
failed, and 1 iff every needed kind failed; each needed kind is
attempted regardless of the other kind's outcome, and each successful
kind's run-state timestamp is recorded, independently of the other
kind's result. -/
theorem claim_C3_combined_outcomes (hrs days : Int) (fmt : String)
    (now : Int) (lastR lastF : Option Int) (force auto : Bool)
    (resticOk fullOk : Bool) (st : RunMap) (hfmt : fmt ≠ "restic")
    (hneed : kind_needed force lastR now (hoursToSecs hrs) = true ∨
      kind_needed force lastF now (daysToSecs days) = true) :
    let r := run_combined_backup hrs days fmt now lastR lastF force auto
      false resticOk fullOk st
    let rn := kind_needed force lastR now (hoursToSecs hrs)
    let fn := kind_needed force lastF now (daysToSecs days)
    (r.exitCode = 0 ↔ ((rn = true → resticOk = true) ∧
      (fn = true → fullOk = true))) ∧
    (r.exitCode = 2 ↔ (((rn && resticOk) || (fn && fullOk)) = true ∧
      ((rn && !resticOk) || (fn && !fullOk)) = true)) ∧
    (r.exitCode = 1 ↔ ((rn = true → resticOk = false) ∧
      (fn = true → fullOk = false))) ∧
    r.resticAttempted = rn ∧
    r.fullAttempted = fn ∧
    r.state "restic" = (if rn && resticOk then some now else st "restic") ∧
    r.state fmt = (if fn && fullOk then some now else st fmt) := by
  have hfmt' : ¬("restic" = fmt) := fun h => hfmt h.symm
  cases hrn : kind_needed force lastR now (hoursToSecs hrs) <;>
    cases hfn : kind_needed force lastF now (daysToSecs days) <;>
      cases resticOk <;> cases fullOk <;>
        simp_all [run_combined_backup, updLastRun, hfmt']

/-- Witness for C3: both kinds due (never run), restic succeeds, the
full archive fails: return value 2, restic timestamp recorded, full
timestamp absent. -/
theorem claim_C3_combined_outcomes_witness :
    (run_combined_backup 4 7 "7z" 0 none none false false false true false
      (fun _ => none)).exitCode = 2 ∧
    (run_combined_backup 4 7 "7z" 0 none none false false false true false
      (fun _ => none)).state "restic" = some 0 ∧
    (run_combined_backup 4 7 "7z" 0 none none false false false true false
      (fun _ => none)).state "7z" = none := by
  have h := claim_C3_combined_outcomes 4 7 "7z" 0 none none false false
    true false (fun _ => none) (by decide) (Or.inl (by decide))
  refine ⟨h.2.1.mpr ⟨by decide, by decide⟩, ?_, ?_⟩
  · rw [h.2.2.2.2.2.1]; decide
  · rw [h.2.2.2.2.2.2]; decide

/-- Counterexample to C1: a combined-mode invocation (restic on,
archive format "7z", dry_run false) in which both kinds are needed, the
restic backup succeeds and the archive backup fails.
`run_combined_backup` returns the partial-success code 2, but the CLI
exit mapping of line 1982 (`ctx.exit(0 if result in (0, 2) else 1)`)
turns it into process exit code 0, so the partial-success code does not
cross the process boundary and a caller cannot distinguish partial
success from full success. -/
theorem claim_C1_counterexample :
    (run_combined_backup 4 7 "7z" 0 none none true false false true false
      (fun _ => none)).exitCode = 2 ∧
    (cli ⟨true, true, false, false, true, false, false, true, "7z", 4, 7, 0,
      none, none, true, false, true, fun _ => none⟩).exitCode = 0 ∧
    (cli ⟨true, true, false, false, true, false, false, true, "7z", 4, 7, 0,
      none, none, true, false, true, fun _ => none⟩).exitCode ≠ 2 := by
  refine ⟨rfl, rfl, by decide⟩

/-- C1 as amended: in a combined-mode invocation the process exit code
is only two-way, not three-way: 0 whenever every needed kind succeeded,
nothing was needed, or at least one needed kind succeeded (partial
success is collapsed onto full success by line 1982), and 1 exactly
when at least one kind was needed and every needed kind failed.  The
distinct partial-success code 2 exists only in `run_combined_backup`'s
return value, inside the process. -/
theorem claim_C1_amended_exit_two_way (e : CliEnv)
    (hsrc : e.sourceExists = true) (hdest : e.destParentExists = true)
    (hbat : (e.auto && e.onBattery) = false) (hlist : e.listMode = false)
    (hrestic : e.restic = true) (hfmt : e.archive_format ≠ "")
    (hdry : e.dry_run = false) :
    let rn := kind_needed e.force e.last_restic e.now
      (hoursToSecs e.restic_interval)
    let fn := kind_needed e.force e.last_full e.now
      (daysToSecs e.full_interval)
    (cli e).exitCode =
      (if ((rn || fn) && !((rn && e.resticOk) || (fn && e.fullOk))) = true
       then 1 else 0) ∧
    (cli e).exitCode ≠ 2 := by
  cases hrn : kind_needed e.force e.last_restic e.now
      (hoursToSecs e.restic_interval) <;>
    cases hfn : kind_needed e.force e.last_full e.now
        (daysToSecs e.full_interval) <;>
      cases hro : e.resticOk <;> cases hfo : e.fullOk <;>
        cases hauto : e.auto <;> cases hbatt : e.onBattery <;>
          simp_all [cli, run_combined_backup, cli_combined_exit]

/-- Witness for the amended C1: with both kinds needed, restic failing
and the archive succeeding, the process exit code is 0 (not 2). -/
theorem claim_C1_amended_exit_two_way_witness :
    (cli ⟨true, true, false, false, true, false, false, true, "tar.gz", 4, 7,
      0, none, none, false, true, true, fun _ => none⟩).exitCode = 0 := by
  have h := claim_C1_amended_exit_two_way
    ⟨true, true, false, false, true, false, false, true, "tar.gz", 4, 7,
      0, none, none, false, true, true, fun _ => none⟩
    rfl rfl rfl rfl rfl (by decide) rfl
  rw [h.1]; decide

/-- C8: With `auto` set and the on-battery signal true (and the earlier
source/destination checks passing), the CLI short-circuits with exit
code 0 before attempting any operation kind, leaving the run state
unchanged — whatever is due; and the gate applies only in auto mode:
with `auto` false the outcome is independent of the battery signal. -/
theorem claim_C8_battery_gate (e : CliEnv)
    (hsrc : e.sourceExists = true) (hdest : e.destParentExists = true) :
    (e.auto = true → e.onBattery = true →
      cli e = ⟨0, false, false, e.st⟩) ∧
    (e.auto = false →
      cli { e with onBattery := true } = cli { e with onBattery := false }) := by
  constructor
  · intro hauto hbatt
    simp [cli, hsrc, hdest, hauto, hbatt]
  · intro hauto
    simp [cli, cli_single, hauto]

/-- Witness for C8: a concrete auto-mode on-battery invocation with
both kinds overdue exits 0 without touching anything, and a concrete
manual invocation ignores the battery signal. -/
theorem claim_C8_battery_gate_witness :
    cli ⟨true, true, true, false, false, true, false, true, "7z", 4, 7, 0,
      none, none, true, true, true, fun _ => none⟩ =
      ⟨0, false, false, fun _ => none⟩ ∧
    cli ⟨true, true, true, false, false, false, false, true, "7z", 4, 7, 0,
      none, none, true, true, true, fun _ => none⟩ =
      cli ⟨true, true, false, false, false, false, false, true, "7z", 4, 7, 0,
        none, none, true, true, true, fun _ => none⟩ := by
  constructor
  · exact (claim_C8_battery_gate _ rfl rfl).1 rfl rfl
  · exact (claim_C8_battery_gate
      ⟨true, true, false, false, false, false, false, true, "7z", 4, 7, 0,
        none, none, true, true, true, fun _ => none⟩ rfl rfl).2 rfl

/-- C4: The effective exclusion list is the global default exclusions
with the job-specific exclusions concatenated after them — a superset
of both, with the job ones adding to (never replacing) the global ones
and nothing dropped (the code performs not even exact-string
de-duplication, which the claim permits but does not require). -/
theorem claim_C4_exclusions_concatenated (extra : List String) :
    build_excludes false extra = DEFAULT_EXCLUDES ++ extra ∧
    (∀ x ∈ DEFAULT_EXCLUDES, x ∈ build_excludes false extra) ∧
    (∀ x ∈ extra, x ∈ build_excludes false extra) := by
  refine ⟨rfl, ?_, ?_⟩
  · intro x hx
    simp [build_excludes, hx]
  · intro x hx
    simp [build_excludes, hx]

/-- Witness for C4: a global default and a job-specific exclusion are
both present in the concrete combined list. -/
theorem claim_C4_exclusions_concatenated_witness :
    "node_modules" ∈ build_excludes false ["scratch"] ∧
    "scratch" ∈ build_excludes false ["scratch"] := by
  have h := claim_C4_exclusions_concatenated ["scratch"]
  exact ⟨h.2.1 "node_modules" (by decide), h.2.2 "scratch" (by decide)⟩

/-- C7: `resolve_job_config` is a right-biased field-wise merge: a key
defined in the job override takes its override value, a key absent from
the override takes the defaults' value, and every key defined in the
defaults is defined in the result. -/
theorem claim_C7_right_biased_merge (job defaults : PyDict) (k : String)
    (v : Value) (hnd : (job.map Prod.fst).Nodup) :
    (dGet job k = some v → dGet (resolve_job_config job defaults) k = some v) ∧
    (dGet job k = none → dGet (resolve_job_config job defaults) k =
      dGet defaults k) ∧
    (dGet defaults k ≠ none → dGet (resolve_job_config job defaults) k ≠
      none) := by
  refine ⟨?_, ?_, ?_⟩
  · intro h
    exact dGet_dUpdate_of_some hnd h defaults
  · intro h
    exact dGet_dUpdate_of_none h defaults
  · intro h
    cases hj : dGet job k with
    | some w =>
      rw [show resolve_job_config job defaults = dUpdate defaults job from rfl,
        dGet_dUpdate_of_some hnd hj defaults]
      exact Option.some_ne_none w
    | none =>
      rw [show resolve_job_config job defaults = dUpdate defaults job from rfl,
        dGet_dUpdate_of_none hj defaults]
      exact h

/-- Witness for C7: a concrete override/defaults pair, with one key
overridden, one inherited, one only in the defaults. -/
theorem claim_C7_right_biased_merge_witness :
    dGet (resolve_job_config [("dest", Value.str "/j")]
      [("dest", Value.str "/d"), ("op_vault", Value.str "v")]) "dest" =
      some (Value.str "/j") ∧
    dGet (resolve_job_config [("dest", Value.str "/j")]
      [("dest", Value.str "/d"), ("op_vault", Value.str "v")]) "op_vault" =
      dGet [("dest", Value.str "/d"), ("op_vault", Value.str "v")]
        "op_vault" := by
  constructor
  · exact (claim_C7_right_biased_merge [("dest", Value.str "/j")]
      [("dest", Value.str "/d"), ("op_vault", Value.str "v")] "dest"
      (Value.str "/j") (by decide)).1 rfl
  · exact (claim_C7_right_biased_merge [("dest", Value.str "/j")]
      [("dest", Value.str "/d"), ("op_vault", Value.str "v")] "op_vault"
      (Value.str "/j") (by decide)).2.1 rfl

/-- C6: The legacy single-enum "format" field is translated to the
two-flag representation: "hybrid" to archive format "7z" with restic
enabled; "restic" to no archive format with restic enabled; "7z" and
"tar.gz" to that archive format with restic disabled — removing the
"format" key in each case — and a record with no "format" field is
returned unchanged. -/
theorem claim_C6_format_field_translation (c : PyDict)
    (hnd : (c.map Prod.fst).Nodup) :
    (dGet c "format" = some (Value.str "hybrid") →
      dGet (migrate_format_field c) "archive_format" = some (Value.str "7z") ∧
      dGet (migrate_format_field c) "use_restic" = some (Value.bool true) ∧
      dGet (migrate_format_field c) "format" = none) ∧
    (dGet c "format" = some (Value.str "restic") →
      dGet (migrate_format_field c) "archive_format" = some (Value.str "") ∧
      dGet (migrate_format_field c) "use_restic" = some (Value.bool true) ∧
      dGet (migrate_format_field c) "format" = none) ∧
    (dGet c "format" = some (Value.str "7z") →
      dGet (migrate_format_field c) "archive_format" = some (Value.str "7z") ∧
      dGet (migrate_format_field c) "use_restic" = some (Value.bool false) ∧
      dGet (migrate_format_field c) "format" = none) ∧
    (dGet c "format" = some (Value.str "tar.gz") →
      dGet (migrate_format_field c) "archive_format" =
        some (Value.str "tar.gz") ∧
      dGet (migrate_format_field c) "use_restic" = some (Value.bool false) ∧
      dGet (migrate_format_field c) "format" = none) ∧
    (dGet c "format" = none → migrate_format_field c = c) := by
  have triple : ∀ (a : Value) (b : Bool),
      dGet (dSet (dSet (dPop c "format") "archive_format" a) "use_restic"
        (Value.bool b)) "archive_format" = some a ∧
      dGet (dSet (dSet (dPop c "format") "archive_format" a) "use_restic"
        (Value.bool b)) "use_restic" = some (Value.bool b) ∧
      dGet (dSet (dSet (dPop c "format") "archive_format" a) "use_restic"
        (Value.bool b)) "format" = none := by
    intro a b
    refine ⟨?_, dGet_dSet_self _ _ _, ?_⟩
    · rw [dGet_dSet_ne _ _ (by decide), dGet_dSet_self]
    · rw [dGet_dSet_ne _ _ (by decide), dGet_dSet_ne _ _ (by decide)]
      exact dGet_dPop_self c "format" hnd
  refine ⟨?_, ?_, ?_, ?_, ?_⟩ <;> intro h
  · have e : migrate_format_field c = dSet (dSet (dPop c "format")
        "archive_format" (Value.str "7z")) "use_restic" (Value.bool true) := by
      simp [migrate_format_field, h]
    rw [e]; exact triple _ _
  · have e : migrate_format_field c = dSet (dSet (dPop c "format")
        "archive_format" (Value.str "")) "use_restic" (Value.bool true) := by
      simp [migrate_format_field, h]
    rw [e]; exact triple _ _
  · have e : migrate_format_field c = dSet (dSet (dPop c "format")
        "archive_format" (Value.str "7z")) "use_restic"
        (Value.bool false) := by
      simp [migrate_format_field, h]
    rw [e]; exact triple _ _
  · have e : migrate_format_field c = dSet (dSet (dPop c "format")
        "archive_format" (Value.str "tar.gz")) "use_restic"
        (Value.bool false) := by
      simp [migrate_format_field, h]
    rw [e]; exact triple _ _
  · simp [migrate_format_field, h]

/-- Witness for C6: the four recognized legacy tags and a record
without a "format" field, on concrete records. -/
theorem claim_C6_format_field_translation_witness :
    dGet (migrate_format_field [("format", Value.str "hybrid"),
      ("dest", Value.str "/d")]) "archive_format" = some (Value.str "7z") ∧
    dGet (migrate_format_field [("format", Value.str "restic")])
      "use_restic" = some (Value.bool true) ∧
    dGet (migrate_format_field [("format", Value.str "7z")])
      "use_restic" = some (Value.bool false) ∧
    dGet (migrate_format_field [("format", Value.str "tar.gz")])
      "archive_format" = some (Value.str "tar.gz") ∧
    migrate_format_field [("dest", Value.str "/d")] =
      [("dest", Value.str "/d")] := by
  refine ⟨?_, ?_, ?_, ?_, ?_⟩
  · exact ((claim_C6_format_field_translation
      [("format", Value.str "hybrid"), ("dest", Value.str "/d")]
      (by decide)).1 rfl).1
  · exact ((claim_C6_format_field_translation [("format", Value.str "restic")]
      (by decide)).2.1 rfl).2.1
  · exact ((claim_C6_format_field_translation [("format", Value.str "7z")]
      (by decide)).2.2.1 rfl).2.1
  · exact ((claim_C6_format_field_translation [("format", Value.str "tar.gz")]
      (by decide)).2.2.2.1 rfl).1
  · exact (claim_C6_format_field_translation [("dest", Value.str "/d")]
      (by decide)).2.2.2.2 rfl

/-- C10: For a "format" value outside the recognized tag set,
`_migrate_format_field` removes the "format" key and sets neither
"archive_format" nor "use_restic": the result is exactly the record
with the "format" binding dropped, the legacy mode information silently
discarded. -/
theorem claim_C10_unrecognized_format_discarded (c : PyDict) (v : Value)
    (hnd : (c.map Prod.fst).Nodup) (h : dGet c "format" = some v)
    (h1 : v ≠ Value.str "hybrid") (h2 : v ≠ Value.str "restic")
    (h3 : v ≠ Value.str "7z") (h4 : v ≠ Value.str "tar.gz") :
    migrate_format_field c = dPop c "format" ∧
    dGet (migrate_format_field c) "format" = none ∧
    dGet (migrate_format_field c) "archive_format" =
      dGet c "archive_format" ∧
    dGet (migrate_format_field c) "use_restic" = dGet c "use_restic" := by
  have he : migrate_format_field c = dPop c "format" := by
    simp only [migrate_format_field, h]
    rw [if_neg h1, if_neg h2, if_neg (by tauto)]
  refine ⟨he, ?_, ?_, ?_⟩
  · rw [he]
    exact dGet_dPop_self c "format" hnd
  · rw [he]
    exact dGet_dPop_ne c (by decide)
  · rw [he]
    exact dGet_dPop_ne c (by decide)

/-- Witness for C10: a concrete record with an unrecognized legacy
format tag loses the tag and keeps its other fields. -/
theorem claim_C10_unrecognized_format_discarded_witness :
    migrate_format_field [("format", Value.str "zip"),
      ("archive_format", Value.str "tar.gz")] =
      [("archive_format", Value.str "tar.gz")] ∧
    dGet (migrate_format_field [("format", Value.str "zip"),
      ("archive_format", Value.str "tar.gz")]) "archive_format" =
      some (Value.str "tar.gz") := by
  have h := claim_C10_unrecognized_format_discarded
    [("format", Value.str "zip"), ("archive_format", Value.str "tar.gz")]
    (Value.str "zip") (by decide) rfl (by decide) (by decide) (by decide)
    (by decide)
  exact ⟨h.1, by rw [h.2.2.1]; decide⟩

/-- C5: `migrate_jobs_json` returns true iff a migration was performed
and is gated and idempotent: with the manifest already present it
returns false and touches nothing; whenever it returns false the
storage is unchanged; it returns true only when the legacy store exists,
parses, is non-empty and the manifest does not exist — and then it
writes the manifest, so an immediately following call returns false
with the storage unchanged (work happens at most once); a parse failure
of the legacy store yields false instead of an error. -/
theorem claim_C5_migration_gated_idempotent (s : Storage) :
    (s.manifest_file.isSome = true → migrate_jobs_json s = (false, s)) ∧
    ((migrate_jobs_json s).1 = false → (migrate_jobs_json s).2 = s) ∧
    ((migrate_jobs_json s).1 = true → s.manifest_file = none ∧
      ∃ m, s.jobs_file = some (some m) ∧ m ≠ []) ∧
    ((migrate_jobs_json s).1 = true →
      ((migrate_jobs_json s).2).manifest_file.isSome = true ∧
      migrate_jobs_json ((migrate_jobs_json s).2) =
        (false, (migrate_jobs_json s).2)) ∧
    (s.jobs_file = some none → migrate_jobs_json s = (false, s)) := by
  obtain ⟨jf, mf, sf⟩ := s
  cases jf with
  | none => simp [migrate_jobs_json]
  | some raw =>
    cases hmf : mf with
    | some m => simp [migrate_jobs_json]
    | none =>
      cases raw with
      | none => simp [migrate_jobs_json]
      | some old_jobs =>
        by_cases hemp : old_jobs = []
        · subst hemp
          simp [migrate_jobs_json]
        · refine ⟨?_, ?_, ?_, ?_, ?_⟩
          · intro h
            simp at h
          · intro h
            simp [migrate_jobs_json, hemp] at h
          · intro _
            exact ⟨rfl, old_jobs, rfl, hemp⟩
          · intro _
            constructor
            · simp [migrate_jobs_json, hemp]
            · simp [migrate_jobs_json, hemp]
          · intro h
            simp at h

/-- Witness for C5: a one-record legacy store with no manifest migrates
exactly once: the first call reports work and writes the manifest, the
second call reports no work and changes nothing. -/
theorem claim_C5_migration_gated_idempotent_witness :
    (migrate_jobs_json ⟨some (some [("/s", ⟨some "j", some "/s", none,
      ⟨none, none, none, none, none, none, none⟩, []⟩)]), none, none⟩).1 =
      true ∧
    migrate_jobs_json ((migrate_jobs_json ⟨some (some [("/s", ⟨some "j",
      some "/s", none, ⟨none, none, none, none, none, none, none⟩, []⟩)]),
      none, none⟩).2) =
      (false, (migrate_jobs_json ⟨some (some [("/s", ⟨some "j", some "/s",
        none, ⟨none, none, none, none, none, none, none⟩, []⟩)]), none,
        none⟩).2) := by
  refine ⟨rfl, ?_⟩
  exact ((claim_C5_migration_gated_idempotent ⟨some (some [("/s", ⟨some "j",
    some "/s", none, ⟨none, none, none, none, none, none, none⟩, []⟩)]),
    none, none⟩).2.2.2.1 rfl).2

/-- C9: Job-key normalization is a projection: applying `get_job_key`
to its own output yields the same key (for a well-formed symlink table
and a resolved working directory), and any two textual paths that
resolve to the same real directory — through home expansion, symlink
and relative-segment resolution — normalize to the identical key, so
the normalization applied at registration and at lookup always
agrees. -/
theorem claim_C9_job_key_projection (fs : FS) (cwd home : List String)
    (p q : PPath) (hw : wfFS fs = true) (hcwd : goodPath fs cwd = true) :
    get_job_key fs cwd home (get_job_key fs cwd home p) =
      get_job_key fs cwd home p ∧
    (resolvePath fs cwd (expanduser home p) =
        resolvePath fs cwd (expanduser home q) →
      get_job_key fs cwd home p = get_job_key fs cwd home q) := by
  constructor
  · have hinit : goodPath fs
        (if (expanduser home p).absolute then [] else cwd) = true := by
      split
      · exact goodPath_nil fs
      · exact hcwd
    have hr : goodPath fs (resolvePath fs cwd (expanduser home p)) = true :=
      goodPath_resolveGo hw _ _ hinit
    show get_job_key fs cwd home
      ⟨true, resolvePath fs cwd (expanduser home p)⟩ = _
    unfold get_job_key
    have he : expanduser home
        ⟨true, resolvePath fs cwd (expanduser home p)⟩ =
        ⟨true, resolvePath fs cwd (expanduser home p)⟩ := by
      simp [expanduser]
    rw [he]
    show PPath.mk true (resolveGo fs (if true = true then [] else cwd)
      (resolvePath fs cwd (expanduser home p))) = _
    simp only [if_true]
    rw [resolveGo_of_good hr]
  · intro h
    simp [get_job_key, h]

/-- Witness for C9: a concrete filesystem with one symlink
`/home/u/ln -> /data/real`; the relative path `~/ln/x` and the absolute
path `/data/./real/x` normalize to the same key, and re-normalizing
that key is the identity. -/
theorem claim_C9_job_key_projection_witness :
    get_job_key [(["home", "u", "ln"], ["data", "real"])] ["home", "u"]
      ["home", "u"] (get_job_key [(["home", "u", "ln"], ["data", "real"])]
        ["home", "u"] ["home", "u"] ⟨false, ["~", "ln", "x"]⟩) =
      get_job_key [(["home", "u", "ln"], ["data", "real"])] ["home", "u"]
        ["home", "u"] ⟨false, ["~", "ln", "x"]⟩ ∧
    get_job_key [(["home", "u", "ln"], ["data", "real"])] ["home", "u"]
      ["home", "u"] ⟨false, ["~", "ln", "x"]⟩ =
      get_job_key [(["home", "u", "ln"], ["data", "real"])] ["home", "u"]
        ["home", "u"] ⟨true, ["data", ".", "real", "x"]⟩ := by
  have h := claim_C9_job_key_projection
    [(["home", "u", "ln"], ["data", "real"])] ["home", "u"] ["home", "u"]
    ⟨false, ["~", "ln", "x"]⟩ ⟨true, ["data", ".", "real", "x"]⟩
    (by decide) (by decide)
  exact ⟨h.1, h.2 (by decide)⟩

end Snapback
